import Mathlib

/-!
Verification of the modem IP file deployment script (`deploy.py`).

The definitions below are a shallow embedding of the deployment core:
pure helpers are translated directly; functions that perform I/O are
modelled by passing the outcomes of their external effects (ping results,
ssh probe results, subprocess exit codes, remote command output) as
explicit oracle arguments, and unbounded retry loops are modelled with a
fuel parameter where running out of fuel (`none`) corresponds to the
Python loop not having returned yet.
-/

namespace Deploy

/-! ### Python string primitives used by the script -/

/-- ASCII whitespace recognised by Python `str.strip()`
(space, tab, newline, carriage return, vertical tab, form feed). -/
def py_space (c : Char) : Bool :=
  c = ' ' || c = '\t' || c = '\n' || c = '\r' || c = '\x0b' || c = '\x0c'

/-- Python `s.strip()`: remove leading and trailing whitespace. -/
def py_strip (s : String) : String :=
  String.mk (((s.data.dropWhile py_space).reverse.dropWhile py_space).reverse)

/-- Python `s.startswith(c)` for a single-character pattern:
true when the first character of `s` is `c`. -/
def starts_with_char (s : String) : Char → Bool :=
  fun c => s.data.head? == some c

/-- Python `s.isdigit()` restricted to ASCII digits: nonempty and all digits. -/
def py_isdigit (s : String) : Bool :=
  !s.data.isEmpty && s.data.all Char.isDigit

/-- Python `s.split(sep)` for a single-character separator, on the
character list: empty fields are kept, and the empty string splits to a
single empty field. -/
def split_char (sep : Char) : List Char → List (List Char)
  | [] => [[]]
  | c :: rest =>
    let r := split_char sep rest
    if c = sep then [] :: r
    else
      match r with
      | [] => [[c]]
      | h :: t => (c :: h) :: t

/-- Python `s.split(sep)` for a single-character separator. -/
def py_split (s : String) (sep : Char) : List String :=
  (split_char sep s.data).map String.mk

/-- Python `s.endswith(c)` for a single-character pattern:
true when the last character of `s` is `c`. -/
def ends_with_char (s : String) (c : Char) : Bool :=
  s.data.getLast? == some c

/-! ### `format_ip_for_sftp` (deploy.py lines 207-211) -/

/-- `format_ip_for_sftp(ip)`: bracket the address for the sftp command line
when it contains a colon (IPv6) and is not already bracketed. -/
def format_ip_for_sftp (ip : String) : String :=
  if ip.data.contains ':' && !starts_with_char ip '[' then "[" ++ ip ++ "]" else ip

/-- Host argument handed to the pexpect-driven sftp backend
(`send_file_sftp_pexpect`, line 437). -/
def pexpect_host_arg (ip : String) : String := format_ip_for_sftp ip

/-- Host argument handed to the subprocess sftp backend
(`send_file_sftp_subprocess`, line 493). -/
def subprocess_host_arg (ip : String) : String := format_ip_for_sftp ip

/-- Host argument handed to the paramiko backend: `sftp_connection`
passes the ip to `paramiko.Transport((ip, port))` unchanged (line 381). -/
def paramiko_host_arg (ip : String) : String := ip

/-! ### `ping_check` (deploy.py lines 214-236) -/

/-- Outcome of the `subprocess.run` call inside `ping_check`: either the
process completed with a return code, or one of the exception types that
the function catches (`subprocess.TimeoutExpired`, `OSError`,
`ValueError`) was raised. -/
inductive PingOutcome where
  | completed (returncode : Int)
  | timeoutExpired
  | osError
  | valueError
deriving DecidableEq, Repr

/-- The argv `ping_check` builds: count 1 on both platforms, with the
platform-specific timeout flag. -/
def ping_args (is_win32 : Bool) (ping_timeout : Int) (ip : String) : List String :=
  if is_win32 then
    ["ping", "-n", "1", "-w", toString (ping_timeout * 1000), ip]
  else
    ["ping", "-c", "1", "-W", toString ping_timeout, ip]

/-- `ping_check`: true exactly when the subprocess completed with return
code 0; every caught exception is reported as `false`. -/
def ping_check (o : PingOutcome) : Bool :=
  match o with
  | .completed rc => rc == 0
  | .timeoutExpired => false
  | .osError => false
  | .valueError => false

/-! ### Notification dispatch guards (deploy.py lines 1092-1096, 1134-1146,
1167-1177 and `send_notification`, lines 659-668) -/

/-- The slice of the configuration record that the notification guards in
`main` and `send_notification` consult. -/
structure NotificationConfig where
  enabled : Bool
  notify_on : List String
  email_enabled : Bool
deriving DecidableEq, Repr

/-- `send_notification` sends an email iff `notification.enabled` and
`notification.email.enabled` both hold. -/
def send_notification_sends_email (c : NotificationConfig) : Bool :=
  c.enabled && c.email_enabled

/-- Guard on the start notification in `main` (line 1092). -/
def start_notification_dispatched (c : NotificationConfig) : Bool :=
  c.enabled && c.notify_on.contains "start"

/-- Guard on the per-host success notification in `main` (lines 1134-1135). -/
def ip_success_notification_dispatched (c : NotificationConfig) : Bool :=
  c.enabled && c.notify_on.contains "ip_success"

/-- Guard on the completion notification in `main` (lines 1167-1170):
also requires every host to have succeeded. -/
def complete_notification_dispatched (c : NotificationConfig)
    (success_count total : Nat) : Bool :=
  c.enabled && (c.notify_on.contains "complete" && (success_count == total))

/-! ### Pexpect backend verification (deploy.py lines 465-487) -/

/-- Verdict of `send_file_sftp_pexpect` after the sftp subprocess exits.
`exitstatus` is the subprocess exit code; `local_hash` is the result of
`get_file_hash` (`none` when hashing raised); `remote_hash` is what
`get_remote_file_hash` would return (`none` when it fails) — it is only
consulted when a local hash was obtained and paramiko is available. -/
def pexpect_transfer_ok (has_paramiko : Bool) (exitstatus : Int)
    (local_hash remote_hash : Option String) : Bool :=
  if exitstatus == 0 then
    match local_hash with
    | some lh =>
      if has_paramiko then
        match remote_hash with
        | some rh => lh == rh
        | none => true
      else true
    | none => true
  else false

/-! ### `execute_remote_commands` (deploy.py lines 575-611) -/

/-- External effects of one `execute_remote_commands` call:
whether the ssh connection could be opened, the exit status of the `mv`
command, the stdout of the process-listing pipeline, and the outcome of
each `kill -9` (`none` models a raised exception, which the code
swallows). -/
structure RemoteCmdEnv where
  conn_ok : Bool
  mv_exit : Int
  ps_output : String
  kill_outcome : Nat → Option Int

/-- Result of `execute_remote_commands`: the returned boolean, the `mv`
command line it issues, the rename target, and the list of pid tokens
passed to `kill -9`. -/
structure RemoteCmdResult where
  ok : Bool
  mv_cmd : String
  mv_target : String
  killed : List String
deriving DecidableEq, Repr

/-- Tokens passed to `kill -9`: the pipeline output is stripped; when
nonempty it is split on newlines, each token stripped, and only nonempty
all-digit tokens survive (lines 596-599). -/
def kill_targets (ps_output : String) : List String :=
  let pids := py_strip ps_output
  if pids = "" then []
  else ((py_split pids '\n').map py_strip).filter (fun p => p ≠ "" && py_isdigit p)

/-- `execute_remote_commands(ip, remote_file_path, filename)`:
rename target obtained by literal substring replacement of `.BMT`;
a failed `mv` returns `False` before the kill step; kill outcomes never
affect the returned value. -/
def execute_remote_commands (remote_file_path : String)
    (env : RemoteCmdEnv) : RemoteCmdResult :=
  let remote_file_original := remote_file_path.replace ".BMT" ""
  let mv_cmd := "mv " ++ remote_file_path ++ " " ++ remote_file_original
  if !env.conn_ok then
    { ok := false, mv_cmd := mv_cmd, mv_target := remote_file_original, killed := [] }
  else if env.mv_exit != 0 then
    { ok := false, mv_cmd := mv_cmd, mv_target := remote_file_original, killed := [] }
  else
    { ok := true, mv_cmd := mv_cmd, mv_target := remote_file_original,
      killed := kill_targets env.ps_output }

/-! ### Completion ledger (deploy.py lines 735-756) -/

/-- `init_complete_file()`: delete `complete.txt`, i.e. the ledger becomes
empty regardless of its previous contents. -/
def init_complete_file (old_lines : List String) : List String :=
  let _ := old_lines
  []

/-- `record_complete_ip(ip)`: read the stripped nonempty lines of
`complete.txt`; append `ip` as a new line only when it is not already
present. The ledger is modelled as the list of its lines. -/
def record_complete_ip (lines : List String) (ip : String) : List String :=
  let existing := (lines.map py_strip).filter (fun l => l ≠ "")
  if existing.contains ip then lines else lines ++ [ip]

/-! ### Remote directory creation (deploy.py lines 346-369) and the remote
operations each sftp backend issues -/

/-- `os.path.dirname` (POSIX): everything up to the last `/`, with the
trailing slashes stripped unless the head is empty or all slashes. -/
def dirname (p : String) : String :=
  let cs := p.data
  let i := match List.findIdx? (fun c => c = '/') cs.reverse with
    | none => 0
    | some k => cs.length - k
  let head := cs.take i
  if head.isEmpty || head.all (fun c => c = '/') then String.mk head
  else String.mk ((head.reverse.dropWhile (fun c => c = '/')).reverse)

/-- The cumulative directory paths `check_remote_directory` attempts to
create for a given `remote_dir`: a leading `/` is forced, the path is
split on `/`, empty segments dropped, and each segment extends the
previous path (lines 353-359). -/
def dir_prefixes (remote_dir : String) : List String :=
  let rd := if starts_with_char remote_dir '/' then remote_dir else "/" ++ remote_dir
  let dirs := (py_split rd '/').filter (fun d => d ≠ "")
  (dirs.foldl (fun (acc : List String × String) d =>
    let cur := acc.2 ++ "/" ++ d
    (acc.1 ++ [cur], cur)) ([], "")).1

/-- `check_remote_directory(sftp, remote_file_path)` acting on the set of
directories existing on the remote (modelled as a list): each cumulative
prefix is `mkdir`-ed in turn; an "already exists" error is swallowed, so
an existing directory is left alone and the loop continues. -/
def check_remote_directory (existing : List String) (remote_file_path : String) :
    List String :=
  let remote_dir := dirname remote_file_path
  if remote_dir = "" then existing
  else (dir_prefixes remote_dir).foldl
    (fun s cur => if s.contains cur then s else s ++ [cur]) existing

/-- A remote filesystem operation issued by an sftp backend. -/
inductive RemoteOp where
  | mkdirOp (path : String)
  | rmOp (path : String)
  | putOp (local_path remote_path : String)
deriving DecidableEq, Repr

/-- Remote operations of the pexpect backend (`send_file_sftp_pexpect`,
lines 455-459): `rm` then `put`; no directory creation. -/
def pexpect_remote_ops (local_path remote_path : String) : List RemoteOp :=
  [RemoteOp.rmOp remote_path, RemoteOp.putOp local_path remote_path]

/-- Remote operations of the subprocess backend
(`send_file_sftp_subprocess`, line 494): a single `put`; no directory
creation. -/
def subprocess_remote_ops (local_path remote_path : String) : List RemoteOp :=
  [RemoteOp.putOp local_path remote_path]

/-- Remote operations of the paramiko backend (`send_file_sftp_paramiko`,
lines 409-411): `check_remote_directory` attempts `mkdir` on every
cumulative prefix of the target directory, then `put` runs. -/
def paramiko_remote_ops (local_path remote_path : String) : List RemoteOp :=
  (if dirname remote_path = "" then []
   else (dir_prefixes (dirname remote_path)).map RemoteOp.mkdirOp)
  ++ [RemoteOp.putOp local_path remote_path]

/-! ### Readiness ladder (deploy.py lines 238-257 and 293-340) -/

/-- `wait_for_ping(ip)`: ping in a loop until one ping succeeds; Python
loops forever, here fuel exhaustion is `none`. The attempt counter starts
at 1 and indexes the ping oracle. The function only ever returns `True`. -/
def wait_for_ping (ping_oracle : Nat → PingOutcome) : Nat → Nat → Option Bool
  | 0, _ => none
  | fuel + 1, attempt =>
    if ping_check (ping_oracle attempt) then some true
    else wait_for_ping ping_oracle fuel (attempt + 1)

/-- Outcome of one SSH probe in `wait_for_ssh_ready`: the connection plus
`exec_command("echo test")` either yielded an exit status or raised (any
exception is caught by the bare `except` in the attempt loop). -/
inductive SshProbe where
  | exitStatus (status : Int)
  | connError
deriving DecidableEq, Repr

/-- The command run by each SSH probe (line 320). -/
def ssh_probe_command : String := "echo test"

/-- One round of SSH attempts (lines 317-333): up to
`ssh_attempts_per_round` probes; the round succeeds as soon as a probe
returns exit status 0; a nonzero status or an exception just moves on to
the next attempt. -/
def ssh_round (ssh_oracle : Nat → SshProbe) : Nat → Nat → Bool
  | _, 0 => false
  | base, attempts + 1 =>
    (match ssh_oracle base with
     | .exitStatus s => s == 0
     | .connError => false)
    || ssh_round ssh_oracle (base + 1) attempts

/-- The outer loop of `wait_for_ssh_ready` when paramiko is available
(lines 312-338): ping until success, then one SSH round; when the round
fails, go back to pinging. `p` and `s` index the ping and SSH oracles
across rounds. -/
def ssh_ready_loop (attempts_per_round ping_fuel : Nat)
    (ping_oracle : Nat → PingOutcome) (ssh_oracle : Nat → SshProbe) :
    Nat → Nat → Nat → Option Bool
  | 0, _, _ => none
  | fuel + 1, p, s =>
    match wait_for_ping ping_oracle ping_fuel p with
    | none => none
    | some _ =>
      if ssh_round ssh_oracle s attempts_per_round then some true
      else ssh_ready_loop attempts_per_round ping_fuel ping_oracle ssh_oracle
        fuel (p + ping_fuel) (s + attempts_per_round)

/-- `wait_for_ssh_ready(ip)` (lines 293-340): without paramiko, wait for
one ping success and return `True`; otherwise run the ping/SSH ladder. -/
def wait_for_ssh_ready (has_paramiko : Bool) (attempts_per_round ping_fuel : Nat)
    (ping_oracle : Nat → PingOutcome) (ssh_oracle : Nat → SshProbe)
    (round_fuel : Nat) : Option Bool :=
  if has_paramiko then
    ssh_ready_loop attempts_per_round ping_fuel ping_oracle ssh_oracle round_fuel 1 1
  else
    match wait_for_ping ping_oracle ping_fuel 1 with
    | none => none
    | some _ => some true

/-! ### Per-file deployment (deploy.py lines 840-878) -/

/-- `make_remote_file_path(remote_path, filename)` (lines 840-845). -/
def make_remote_file_path (remote_path filename : String) : String :=
  if ends_with_char remote_path '/' then remote_path ++ filename ++ ".BMT"
  else remote_path ++ "/" ++ filename ++ ".BMT"

/-- One observable step of `send_single_file`: an upload attempt via
`send_file_with_fallback` (with its boolean outcome), or — in move mode
with paramiko — an `execute_remote_commands` invocation. -/
inductive SendEvent where
  | upload (attempt : Nat) (ok : Bool)
  | move_step (attempt : Nat) (ok : Bool)
deriving DecidableEq, Repr

/-- `send_single_file` (lines 848-878): retry the upload until it
succeeds; in move mode with paramiko also run the remote move, and on
move failure re-enter the loop (re-upload). Returns the trace of events
when the Python function returns `True`; `none` when fuel runs out
(the Python loop has not returned yet). `send_oracle n` / `move_oracle n`
are the outcomes of the upload / move on attempt `n` (counting from 1). -/
def send_single_file (move_mode has_paramiko : Bool)
    (send_oracle move_oracle : Nat → Bool) : Nat → Nat → Option (List SendEvent)
  | 0, _ => none
  | fuel + 1, n =>
    if send_oracle n then
      if move_mode && has_paramiko then
        if move_oracle n then
          some [SendEvent.upload n true, SendEvent.move_step n true]
        else
          match send_single_file move_mode has_paramiko send_oracle move_oracle
              fuel (n + 1) with
          | none => none
          | some tr =>
            some (SendEvent.upload n true :: SendEvent.move_step n false :: tr)
      else
        some [SendEvent.upload n true]
    else
      match send_single_file move_mode has_paramiko send_oracle move_oracle
          fuel (n + 1) with
      | none => none
      | some tr => some (SendEvent.upload n false :: tr)

/-! ### Per-host worker (deploy.py lines 880-906) and the orchestrator
round loop (lines 1102-1159) -/

/-- A manifest entry from `file.txt`: local filename and remote directory. -/
structure FileEntry where
  filename : String
  remote_path : String
deriving DecidableEq, Repr

/-- The external world one host worker interacts with: ping and SSH probe
outcomes, per-manifest-entry upload and move outcomes (indexed by entry
position and attempt number), the fuel bounds of the unbounded loops, and
whether an unexpected exception hits the worker body (the
`except Exception` at line 903). -/
structure HostEnv where
  ping_oracle : Nat → PingOutcome
  ssh_oracle : Nat → SshProbe
  ping_fuel : Nat
  ready_fuel : Nat
  send_oracle : Nat → Nat → Bool
  move_oracle : Nat → Nat → Bool
  send_fuel : Nat
  raised : Bool

/-- The per-entry loop of `process_single_ip` (lines 889-897): a missing
local file is logged and skipped; otherwise `send_single_file` must
return (it only returns on success). `i` is the position of the entry in
the manifest, indexing the per-entry oracles. -/
def process_entries (move_mode has_paramiko : Bool) (env : HostEnv)
    (local_exists : String → Bool) : Nat → List FileEntry → Option Bool
  | _, [] => some true
  | i, e :: rest =>
    if local_exists e.filename then
      match send_single_file move_mode has_paramiko (env.send_oracle i)
          (env.move_oracle i) env.send_fuel 1 with
      | none => none
      | some _ => process_entries move_mode has_paramiko env local_exists (i + 1) rest
    else process_entries move_mode has_paramiko env local_exists (i + 1) rest

/-- `process_single_ip` (lines 880-906): an unexpected exception makes the
worker return `False`; otherwise wait for readiness, process every
manifest entry, and return `True`. -/
def process_single_ip (move_mode has_paramiko : Bool) (attempts_per_round : Nat)
    (env : HostEnv) (local_exists : String → Bool) (file_map : List FileEntry) :
    Option Bool :=
  if env.raised then some false
  else
    match wait_for_ssh_ready has_paramiko attempts_per_round env.ping_fuel
        env.ping_oracle env.ssh_oracle env.ready_fuel with
    | none => none
    | some _ => process_entries move_mode has_paramiko env local_exists 0 file_map

/-- The worker result the orchestrator sees for one host in one round:
`True` exactly when `process_single_ip` returned `True`. -/
def host_worker (move_mode has_paramiko : Bool) (attempts_per_round : Nat)
    (env_of : String → HostEnv) (local_exists : String → Bool)
    (file_map : List FileEntry) (ip : String) : Bool :=
  process_single_ip move_mode has_paramiko attempts_per_round (env_of ip)
    local_exists file_map == some true

/-- `success_ip.add(ip)` on the list-modelled set: append only when absent. -/
def set_add (s : List String) (x : String) : List String :=
  if s.contains x then s else s ++ [x]

/-- The remaining hosts of a round (line 1108):
`[ip for ip in ip_list if ip not in success_ip]`. -/
def remaining_hosts (ip_list success : List String) : List String :=
  ip_list.filter (fun ip => !success.contains ip)

/-- One round of the orchestrator loop (lines 1107-1132): run the worker
on every remaining host and add each host whose worker returned `True`
to the success set. -/
def round_step (ip_list : List String) (worker : String → Bool)
    (success : List String) : List String :=
  (remaining_hosts ip_list success).foldl
    (fun acc ip => if worker ip then set_add acc ip else acc) success

/-- Whether a remote operation is a directory creation. -/
def is_mkdir (op : RemoteOp) : Bool :=
  match op with
  | .mkdirOp _ => true
  | _ => false

/-- A host environment in which every external operation succeeds at once;
used to instantiate universally quantified theorems at a concrete input. -/
def sample_host_env : HostEnv where
  ping_oracle := fun _ => PingOutcome.completed 0
  ssh_oracle := fun _ => SshProbe.exitStatus 0
  ping_fuel := 1
  ready_fuel := 1
  send_oracle := fun _ _ => true
  move_oracle := fun _ _ => true
  send_fuel := 1
  raised := false

/-! ## Helper lemmas -/

theorem mem_set_add (s : List String) (x y : String) :
    x ∈ set_add s y ↔ x ∈ s ∨ x = y := by
  unfold set_add
  by_cases h : s.contains y = true
  · rw [if_pos h]
    have hy : y ∈ s := List.elem_iff.mp h
    constructor
    · exact fun hx => Or.inl hx
    · rintro (hx | rfl)
      · exact hx
      · exact hy
  · rw [if_neg h]
    simp [List.mem_append]

theorem subset_set_add (s : List String) (x y : String) (h : x ∈ s) :
    x ∈ set_add s y := (mem_set_add s x y).mpr (Or.inl h)

theorem kill_targets_digits (ps : String) :
    ∀ p ∈ kill_targets ps, p ≠ "" ∧ p.data.all Char.isDigit = true := by
  intro p hp
  unfold kill_targets at hp
  by_cases h : py_strip ps = ""
  · simp [h] at hp
  · simp only [h, if_neg, List.mem_filter, reduceIte] at hp
    obtain ⟨-, hcond⟩ := hp
    have := Bool.and_eq_true _ _ ▸ hcond
    refine ⟨by simpa using this.1, ?_⟩
    have hd : py_isdigit p = true := this.2
    unfold py_isdigit at hd
    exact (Bool.and_eq_true _ _ ▸ hd).2

theorem data_bracketed (s : String) :
    ("[" ++ s ++ "]").data = '[' :: (s.data ++ [']']) := rfl

theorem starts_with_char_bracketed (s : String) :
    starts_with_char ("[" ++ s ++ "]") '[' = true := by
  unfold starts_with_char
  rw [data_bracketed]
  rfl

theorem bracketed_ne (s : String) : "[" ++ s ++ "]" ≠ s := by
  intro h
  have hd : ("[" ++ s ++ "]").data = s.data := congrArg String.data h
  rw [data_bracketed] at hd
  have := congrArg List.length hd
  simp at this
  omega

/-! ## C9: the reachability probe -/

/-- C9: `ping_check` never raises: the caught exception outcomes
(`TimeoutExpired`, `OSError`, `ValueError`) are all reported as `false`,
and the probe returns `true` exactly when the single-count platform ping
(`-n 1` on Windows, `-c 1` elsewhere) exited with status zero. -/
theorem ping_check_spec (w : Bool) (t : Int) (ip : String) :
    (∀ o : PingOutcome, ping_check o = true ↔ o = PingOutcome.completed 0) ∧
    (ping_args w t ip)[2]? = some "1" := by
  constructor
  · intro o
    cases o <;> simp [ping_check]
  · cases w <;> rfl

/-! ## C5: notification event masking -/

/-- C5 counterexample: with notifications and email enabled but
`ip_success` absent from `notify_on`, the orchestrator does not dispatch
the per-host success notification, refuting the claim that `ip_success`
is dispatched unconditionally whenever email notification is enabled.
(The guard at deploy.py lines 1134-1135 checks the whitelist.) -/
theorem ip_success_masking_counterexample :
    send_notification_sends_email
      { enabled := true, notify_on := ["start", "complete"], email_enabled := true } = true ∧
    ip_success_notification_dispatched
      { enabled := true, notify_on := ["start", "complete"], email_enabled := true } = false := by
  decide

/-- C5 amended: all three notification events are masked by the
`notify_on` whitelist: each of `start`, `ip_success` and `complete` is
dispatched iff notifications are enabled and its tag is in `notify_on`
(`complete` additionally requires every host to have succeeded). -/
theorem notification_event_masking (c : NotificationConfig) (s t : Nat) :
    (start_notification_dispatched c = true ↔
      c.enabled = true ∧ c.notify_on.contains "start" = true) ∧
    (ip_success_notification_dispatched c = true ↔
      c.enabled = true ∧ c.notify_on.contains "ip_success" = true) ∧
    (complete_notification_dispatched c s t = true ↔
      c.enabled = true ∧ c.notify_on.contains "complete" = true ∧ s = t) := by
  refine ⟨?_, ?_, ?_⟩ <;>
    simp [start_notification_dispatched, ip_success_notification_dispatched,
      complete_notification_dispatched, Bool.and_eq_true, and_assoc]

/-! ## C6: pexpect backend hash verification -/

/-- C6: with sftp exit code 0, the pexpect backend reports failure iff
paramiko is present and both the local and the remote SHA-256 hashes were
obtained and differ; a missing remote hash, a failed local hash, or an
absent SSH library all accept the transfer on the exit code alone. -/
theorem pexpect_hash_verdict (hp : Bool) (e : Int) (lh rh : Option String)
    (he : e = 0) :
    pexpect_transfer_ok hp e lh rh = false ↔
      hp = true ∧ ∃ l r, lh = some l ∧ rh = some r ∧ l ≠ r := by
  subst he
  cases lh with
  | none => simp [pexpect_transfer_ok]
  | some l =>
    cases hp with
    | false => simp [pexpect_transfer_ok]
    | true =>
      cases rh with
      | none => simp [pexpect_transfer_ok]
      | some r => simp [pexpect_transfer_ok]

theorem pexpect_hash_verdict_witness :
    pexpect_transfer_ok true 0 (some "aa") (some "bb") = false :=
  (pexpect_hash_verdict true 0 (some "aa") (some "bb") rfl).mpr
    ⟨rfl, "aa", "bb", rfl, rfl, by decide⟩

/-! ## C7: the move-mode post-transfer action -/

/-- C7: `execute_remote_commands` computes the rename target by literal
substring replacement of `.BMT`, issues `mv <uploaded> <target>`, returns
failure on a nonzero `mv` exit without reaching the kill step, returns
success regardless of individual kill outcomes, and every token passed to
`kill -9` is a nonempty all-digit string. -/
theorem execute_remote_commands_spec (rp : String) (env : RemoteCmdEnv) :
    (execute_remote_commands rp env).mv_target = rp.replace ".BMT" "" ∧
    (execute_remote_commands rp env).mv_cmd =
      "mv " ++ rp ++ " " ++ rp.replace ".BMT" "" ∧
    (env.conn_ok = true → env.mv_exit ≠ 0 →
      (execute_remote_commands rp env).ok = false ∧
      (execute_remote_commands rp env).killed = []) ∧
    (env.conn_ok = true → env.mv_exit = 0 →
      (execute_remote_commands rp env).ok = true) ∧
    (∀ p ∈ (execute_remote_commands rp env).killed,
      p ≠ "" ∧ p.data.all Char.isDigit = true) := by
  obtain ⟨co, me, ps, ko⟩ := env
  refine ⟨?_, ?_, ?_, ?_, ?_⟩
  · simp only [execute_remote_commands]
    split <;> (try split) <;> rfl
  · simp only [execute_remote_commands]
    split <;> (try split) <;> rfl
  · intro hc hm
    cases co with
    | false => simp at hc
    | true =>
      have hbne : (me != 0) = true := by simpa using hm
      constructor <;> simp [execute_remote_commands, hbne]
  · intro hc hm
    cases co with
    | false => simp at hc
    | true =>
      subst hm
      simp [execute_remote_commands]
  · intro p hp
    cases co with
    | false => simp [execute_remote_commands] at hp
    | true =>
      by_cases hm : me = 0
      · subst hm
        simp [execute_remote_commands] at hp
        exact kill_targets_digits ps p hp
      · have hbne : (me != 0) = true := by simpa using hm
        simp [execute_remote_commands, hbne] at hp

theorem execute_remote_commands_spec_witness :
    (execute_remote_commands "/usr/local/bin/svc.BMT"
      { conn_ok := true, mv_exit := 1, ps_output := "", kill_outcome := fun _ => none }).ok
      = false :=
  ((execute_remote_commands_spec "/usr/local/bin/svc.BMT"
      { conn_ok := true, mv_exit := 1, ps_output := "", kill_outcome := fun _ => none }).2.2.1
    rfl (by decide)).1

/-! ## C8: IPv6 host handling -/

/-- C8 counterexample: the paramiko backend does not receive the
bracketed form — `sftp_connection` passes the raw address `fde0::1` to
`paramiko.Transport`, refuting the claim that every SFTP transport
backend receives `[fde0::1]`. -/
theorem ipv6_paramiko_host_counterexample :
    paramiko_host_arg "fde0::1" = "fde0::1" ∧
    paramiko_host_arg "fde0::1" ≠ "[fde0::1]" := by
  decide

/-- C8 amended: the two command-line sftp backends (pexpect and
subprocess) receive the bracketed form `[fde0::1]`, while the paramiko
library backend receives the unbracketed address; `complete.txt` records
the unbracketed address; and bracketing is applied exactly when the
address contains a colon and does not already start with `[`, making
`format_ip_for_sftp` idempotent. -/
theorem ipv6_host_handling (ip : String) :
    pexpect_host_arg "fde0::1" = "[fde0::1]" ∧
    subprocess_host_arg "fde0::1" = "[fde0::1]" ∧
    paramiko_host_arg "fde0::1" = "fde0::1" ∧
    record_complete_ip [] "fde0::1" = ["fde0::1"] ∧
    format_ip_for_sftp (format_ip_for_sftp ip) = format_ip_for_sftp ip ∧
    (format_ip_for_sftp ip ≠ ip ↔
      ip.data.contains ':' = true ∧ starts_with_char ip '[' = false) := by
  refine ⟨by decide, by decide, rfl, by decide, ?_, ?_⟩
  · by_cases h : (ip.data.contains ':' && !starts_with_char ip '[') = true
    · have h1 : format_ip_for_sftp ip = "[" ++ ip ++ "]" := by
        rw [format_ip_for_sftp, if_pos h]
      rw [h1, format_ip_for_sftp, if_neg]
      simp [starts_with_char_bracketed]
    · have h1 : format_ip_for_sftp ip = ip := by
        rw [format_ip_for_sftp, if_neg h]
      rw [h1, h1]
  · by_cases h : (ip.data.contains ':' && !starts_with_char ip '[') = true
    · have h1 : format_ip_for_sftp ip = "[" ++ ip ++ "]" := by
        rw [format_ip_for_sftp, if_pos h]
      constructor
      · intro _
        simpa [Bool.and_eq_true] using h
      · intro _
        rw [h1]
        exact bracketed_ne ip
    · have h1 : format_ip_for_sftp ip = ip := by
        rw [format_ip_for_sftp, if_neg h]
      constructor
      · intro hne
        exact absurd h1 hne
      · rintro ⟨hc, hs⟩
        exact absurd (by rw [hc, hs]; rfl) h

theorem ipv6_host_handling_witness :
    format_ip_for_sftp (format_ip_for_sftp "fde0::1") = format_ip_for_sftp "fde0::1" :=
  (ipv6_host_handling "fde0::1").2.2.2.2.1

/-! ## C4: remote directory creation -/

theorem mem_foldl_mkdir (l : List String) :
    ∀ (acc : List String) (x : String), x ∈ acc →
      x ∈ l.foldl (fun s cur => if s.contains cur then s else s ++ [cur]) acc := by
  induction l with
  | nil => intro acc x h; exact h
  | cons a t ih =>
    intro acc x h
    simp only [List.foldl_cons]
    apply ih
    by_cases hc : acc.contains a = true
    · rw [if_pos hc]; exact h
    · rw [if_neg hc]; exact List.mem_append_left _ h

theorem mem_foldl_mkdir_self (l : List String) :
    ∀ (acc : List String) (x : String), x ∈ l →
      x ∈ l.foldl (fun s cur => if s.contains cur then s else s ++ [cur]) acc := by
  induction l with
  | nil => intro acc x h; cases h
  | cons a t ih =>
    intro acc x h
    rcases List.mem_cons.mp h with rfl | h2
    · simp only [List.foldl_cons]
      apply mem_foldl_mkdir
      by_cases hc : acc.contains x = true
      · rw [if_pos hc]
        exact List.elem_iff.mp hc
      · rw [if_neg hc]
        exact List.mem_append_right _ (List.mem_singleton.mpr rfl)
    · simp only [List.foldl_cons]
      exact ih _ x h2

/-- C4 counterexample: for the upload target `/usr/local/bin/svc.BMT` the
required remote directory `/usr/local/bin` is nonempty, yet the pexpect
and subprocess sftp backends issue no `mkdir` at all — refuting the claim
that every transport backend creates the required directories before the
upload. (Only the paramiko backend calls `check_remote_directory`.) -/
theorem backend_mkdir_counterexample :
    dirname "/usr/local/bin/svc.BMT" = "/usr/local/bin" ∧
    dir_prefixes (dirname "/usr/local/bin/svc.BMT") ≠ [] ∧
    (pexpect_remote_ops "file/svc" "/usr/local/bin/svc.BMT").all
      (fun op => !is_mkdir op) = true ∧
    (subprocess_remote_ops "file/svc" "/usr/local/bin/svc.BMT").all
      (fun op => !is_mkdir op) = true := by
  decide

/-- C4 amended: only the paramiko backend creates remote directories: it
attempts every cumulative directory prefix of the target, one segment at
a time, before the `put`, and an already-existing directory is not an
error (the directory set only grows and the remaining segments are still
processed); the pexpect and subprocess backends issue no directory
creation. -/
theorem remote_directory_creation (existing : List String) (lp rp : String) :
    (∀ d ∈ existing, d ∈ check_remote_directory existing rp) ∧
    (dirname rp ≠ "" →
      ∀ d ∈ dir_prefixes (dirname rp), d ∈ check_remote_directory existing rp) ∧
    (∃ pre, paramiko_remote_ops lp rp = pre ++ [RemoteOp.putOp lp rp] ∧
      ∀ op ∈ pre, is_mkdir op = true) ∧
    (pexpect_remote_ops lp rp).all (fun op => !is_mkdir op) = true ∧
    (subprocess_remote_ops lp rp).all (fun op => !is_mkdir op) = true := by
  refine ⟨?_, ?_, ?_, rfl, rfl⟩
  · intro d hd
    unfold check_remote_directory
    by_cases h : dirname rp = ""
    · rw [if_pos h]; exact hd
    · rw [if_neg h]; exact mem_foldl_mkdir _ _ _ hd
  · intro h d hd
    unfold check_remote_directory
    rw [if_neg h]
    exact mem_foldl_mkdir_self _ _ _ hd
  · refine ⟨if dirname rp = "" then []
      else (dir_prefixes (dirname rp)).map RemoteOp.mkdirOp, rfl, ?_⟩
    intro op hop
    by_cases h : dirname rp = ""
    · rw [if_pos h] at hop; cases hop
    · rw [if_neg h] at hop
      obtain ⟨d, -, rfl⟩ := List.mem_map.mp hop
      rfl

theorem remote_directory_creation_witness :
    ∀ d ∈ dir_prefixes (dirname "/usr/local/bin/svc.BMT"),
      d ∈ check_remote_directory ["/usr"] "/usr/local/bin/svc.BMT" :=
  (remote_directory_creation ["/usr"] "file/svc" "/usr/local/bin/svc.BMT").2.1
    (by decide)

/-! ## C2: the completion ledger -/

/-- A "clean" line — stripped and nonempty, as every host read from
`ip.txt` is — is recorded by `record_complete_ip` exactly as a set
insertion. -/
theorem record_complete_ip_clean (lines : List String)
    (h : ∀ l ∈ lines, py_strip l = l ∧ l ≠ "") (ip : String) :
    record_complete_ip lines ip = set_add lines ip := by
  unfold record_complete_ip set_add
  have hmap : lines.map py_strip = lines := by
    conv_rhs => rw [← List.map_id lines]
    exact List.map_congr_left (fun l hl => (h l hl).1)
  have hfil : lines.filter (fun l => l ≠ "") = lines :=
    List.filter_eq_self.mpr (fun l hl => by simpa using (h l hl).2)
  rw [hmap, hfil]

theorem ledger_fold_props (ips : List String) :
    ∀ lines : List String,
      (∀ l ∈ lines, py_strip l = l ∧ l ≠ "") →
      (∀ ip ∈ ips, py_strip ip = ip ∧ ip ≠ "") →
      lines.Nodup →
      (ips.foldl record_complete_ip lines).Nodup ∧
      (∀ l ∈ ips.foldl record_complete_ip lines, py_strip l = l ∧ l ≠ "") ∧
      (∀ x, x ∈ ips.foldl record_complete_ip lines ↔ x ∈ lines ∨ x ∈ ips) := by
  induction ips with
  | nil =>
    intro lines h1 h2 hn
    exact ⟨hn, h1, fun x => by simp⟩
  | cons a t ih =>
    intro lines h1 h2 hn
    have ha := h2 a (List.mem_cons_self a t)
    have hrec : record_complete_ip lines a = set_add lines a :=
      record_complete_ip_clean lines h1 a
    have h3 : ∀ l ∈ set_add lines a, py_strip l = l ∧ l ≠ "" := by
      intro l hl
      rcases (mem_set_add lines l a).mp hl with h | rfl
      · exact h1 l h
      · exact ha
    have hn2 : (set_add lines a).Nodup := by
      unfold set_add
      by_cases hc : lines.contains a = true
      · rw [if_pos hc]; exact hn
      · rw [if_neg hc]
        refine List.Nodup.append hn (List.nodup_singleton a) ?_
        rw [List.disjoint_singleton]
        intro hmem
        exact hc (List.elem_iff.mpr hmem)
    have h4 : ∀ ip ∈ t, py_strip ip = ip ∧ ip ≠ "" :=
      fun ip hip => h2 ip (List.mem_cons_of_mem a hip)
    obtain ⟨pn, pc, pm⟩ := ih (set_add lines a) h3 h4 hn2
    rw [List.foldl_cons, hrec]
    refine ⟨pn, pc, fun x => ?_⟩
    rw [pm x, mem_set_add]
    constructor
    · rintro ((h | rfl) | h)
      · exact Or.inl h
      · exact Or.inr (List.mem_cons_self _ _)
      · exact Or.inr (List.mem_cons_of_mem _ h)
    · rintro (h | h)
      · exact Or.inl (Or.inl h)
      · rcases List.mem_cons.mp h with rfl | h5
        · exact Or.inl (Or.inr rfl)
        · exact Or.inr h5

/-- C2: the ledger is cleared at run start, and recording the successful
hosts (each a stripped nonempty line, as read from `ip.txt`) leaves every
recorded host in `complete.txt` exactly once — `record_complete_ip` reads
the current contents before each append and suppresses duplicates. -/
theorem completion_ledger_unique (old ips : List String)
    (hclean : ∀ ip ∈ ips, py_strip ip = ip ∧ ip ≠ "") :
    init_complete_file old = [] ∧
    ∀ ip ∈ ips,
      (ips.foldl record_complete_ip (init_complete_file old)).count ip = 1 := by
  refine ⟨rfl, ?_⟩
  intro ip hip
  obtain ⟨hn, -, hm⟩ := ledger_fold_props ips [] (by simp) hclean List.nodup_nil
  have hmem : ip ∈ ips.foldl record_complete_ip [] := (hm ip).mpr (Or.inr hip)
  have h0 : init_complete_file old = [] := rfl
  rw [h0]
  exact List.count_eq_one_of_mem hn hmem

theorem completion_ledger_unique_witness :
    (["10.0.0.1", "10.0.0.2", "10.0.0.1"].foldl record_complete_ip
      (init_complete_file ["stale"])).count "10.0.0.1" = 1 :=
  (completion_ledger_unique ["stale"] ["10.0.0.1", "10.0.0.2", "10.0.0.1"]
    (by decide)).2 "10.0.0.1" (by decide)

/-! ## C3: the SSH readiness gate -/

/-- `wait_for_ping` only ever returns `True`, and only when some ping
attempt actually succeeded. -/
theorem wait_for_ping_some (ping_oracle : Nat → PingOutcome) :
    ∀ fuel n b, wait_for_ping ping_oracle fuel n = some b →
      b = true ∧ ∃ k, ping_check (ping_oracle k) = true := by
  intro fuel
  induction fuel with
  | zero => intro n b h; simp [wait_for_ping] at h
  | succ f ih =>
    intro n b h
    rw [wait_for_ping] at h
    by_cases hc : ping_check (ping_oracle n) = true
    · rw [if_pos hc] at h
      cases h
      exact ⟨rfl, n, hc⟩
    · rw [if_neg hc] at h
      exact ih (n + 1) b h

/-- A successful SSH round contains an attempt whose `echo test` probe
exited with status 0. -/
theorem ssh_round_exit_zero (ssh_oracle : Nat → SshProbe) :
    ∀ attempts base, ssh_round ssh_oracle base attempts = true →
      ∃ i, ssh_oracle i = SshProbe.exitStatus 0 := by
  intro attempts
  induction attempts with
  | zero => intro base h; simp [ssh_round] at h
  | succ k ih =>
    intro base h
    rw [ssh_round, Bool.or_eq_true] at h
    rcases h with h1 | h2
    · cases hs : ssh_oracle base with
      | exitStatus s =>
        rw [hs] at h1
        have hz : s = 0 := by simpa using h1
        exact ⟨base, by rw [hs, hz]⟩
      | connError => rw [hs] at h1; simp at h1
    · exact ih (base + 1) h2

/-- The paramiko branch of the readiness ladder only returns `some true`,
and only after a probe ran `echo test` with exit status 0. -/
theorem ssh_ready_loop_some (apr pf : Nat) (ping_oracle : Nat → PingOutcome)
    (ssh_oracle : Nat → SshProbe) :
    ∀ rf p s b, ssh_ready_loop apr pf ping_oracle ssh_oracle rf p s = some b →
      b = true ∧ ∃ i, ssh_oracle i = SshProbe.exitStatus 0 := by
  intro rf
  induction rf with
  | zero => intro p s b h; simp [ssh_ready_loop] at h
  | succ f ih =>
    intro p s b h
    rw [ssh_ready_loop] at h
    cases hw : wait_for_ping ping_oracle pf p with
    | none => rw [hw] at h; cases h
    | some w =>
      rw [hw] at h
      by_cases hr : ssh_round ssh_oracle s apr = true
      · rw [if_pos hr] at h
        cases h
        exact ⟨rfl, ssh_round_exit_zero ssh_oracle apr s hr⟩
      · rw [if_neg hr] at h
        exact ih (p + pf) (s + apr) b h

/-- C3: whenever `wait_for_ssh_ready` returns it returns success: with
paramiko present it returns only `True` and only after an SSH connection
ran `echo test` with exit status 0 (a failed round loops back to pinging
instead of returning failure — the function has no `some false` result);
with paramiko absent the SSH probe is skipped entirely and the gate
returns exactly when `wait_for_ping` does, i.e. as soon as one ping
succeeds. -/
theorem wait_for_ssh_ready_spec (hp : Bool) (apr pf rf : Nat)
    (ping_oracle : Nat → PingOutcome) (ssh_oracle : Nat → SshProbe) :
    (∀ b, wait_for_ssh_ready hp apr pf ping_oracle ssh_oracle rf = some b →
      b = true) ∧
    (hp = false →
      wait_for_ssh_ready hp apr pf ping_oracle ssh_oracle rf =
        wait_for_ping ping_oracle pf 1) ∧
    (hp = true →
      wait_for_ssh_ready hp apr pf ping_oracle ssh_oracle rf = some true →
      ∃ i, ssh_oracle i = SshProbe.exitStatus 0) ∧
    (∀ fuel n b, wait_for_ping ping_oracle fuel n = some b →
      b = true ∧ ∃ k, ping_check (ping_oracle k) = true) ∧
    ssh_probe_command = "echo test" := by
  refine ⟨?_, ?_, ?_, wait_for_ping_some ping_oracle, rfl⟩
  · intro b h
    cases hp with
    | true =>
      rw [wait_for_ssh_ready, if_pos rfl] at h
      exact (ssh_ready_loop_some apr pf ping_oracle ssh_oracle rf 1 1 b h).1
    | false =>
      rw [wait_for_ssh_ready] at h
      simp only [Bool.false_eq_true, if_false] at h
      cases hw : wait_for_ping ping_oracle pf 1 with
      | none => rw [hw] at h; cases h
      | some w => rw [hw] at h; cases h; rfl
  · intro hhp
    subst hhp
    rw [wait_for_ssh_ready]
    simp only [Bool.false_eq_true, if_false]
    cases hw : wait_for_ping ping_oracle pf 1 with
    | none => rfl
    | some w =>
      have := (wait_for_ping_some ping_oracle pf 1 w hw).1
      rw [this]
  · intro hhp h
    subst hhp
    rw [wait_for_ssh_ready, if_pos rfl] at h
    exact (ssh_ready_loop_some apr pf ping_oracle ssh_oracle rf 1 1 true h).2

theorem wait_for_ssh_ready_spec_witness :
    ∃ i, (fun _ : Nat => SshProbe.exitStatus 0) i = SshProbe.exitStatus 0 :=
  (wait_for_ssh_ready_spec true 1 1 1 (fun _ => PingOutcome.completed 0)
    (fun _ => SshProbe.exitStatus 0)).2.2.1 rfl (by decide)

/-! ## C10: move mode without paramiko -/

/-- Without paramiko, a returning `send_single_file` call in move mode
produced a trace of failed uploads followed by one successful upload —
no move step ever runs. -/
theorem send_single_file_no_paramiko_trace (send_oracle move_oracle : Nat → Bool) :
    ∀ fuel n tr,
      send_single_file true false send_oracle move_oracle fuel n = some tr →
      ∃ pre k, tr = pre ++ [SendEvent.upload k true] ∧
        (∀ e ∈ pre, ∃ a, e = SendEvent.upload a false) ∧ send_oracle k = true := by
  intro fuel
  induction fuel with
  | zero => intro n tr h; simp [send_single_file] at h
  | succ f ih =>
    intro n tr h
    rw [send_single_file] at h
    by_cases hs : send_oracle n = true
    · rw [if_pos hs] at h
      have h2 : [SendEvent.upload n true] = tr := by simpa using h
      exact ⟨[], n, h2.symm, by simp, hs⟩
    · rw [if_neg hs] at h
      cases hr : send_single_file true false send_oracle move_oracle f (n + 1) with
      | none => rw [hr] at h; cases h
      | some tr2 =>
        rw [hr] at h
        cases h
        obtain ⟨pre, k, htr, hpre, hk⟩ := ih (n + 1) tr2 hr
        refine ⟨SendEvent.upload n false :: pre, k, by rw [htr, List.cons_append], ?_, hk⟩
        intro e he
        rcases List.mem_cons.mp he with rfl | he2
        · exact ⟨n, rfl⟩
        · exact hpre e he2

theorem make_remote_file_path_bmt (rp fn : String) :
    ∃ base, make_remote_file_path rp fn = base ++ ".BMT" := by
  unfold make_remote_file_path
  by_cases h : ends_with_char rp '/' = true
  · rw [if_pos h]; exact ⟨rp ++ fn, rfl⟩
  · rw [if_neg h]; exact ⟨rp ++ "/" ++ fn, rfl⟩

/-- C10: in move mode without paramiko, `send_single_file` returns
success (its only return value) immediately after the first successful
upload: the trace is failed uploads followed by one successful upload,
contains no remote-move step, and the uploaded remote path carries the
`.BMT` suffix that no rename ever removes. -/
theorem move_skipped_without_paramiko (send_oracle move_oracle : Nat → Bool)
    (rp fn : String) (fuel n : Nat) (tr : List SendEvent)
    (h : send_single_file true false send_oracle move_oracle fuel n = some tr) :
    (∀ e ∈ tr, ∀ a b, e ≠ SendEvent.move_step a b) ∧
    (∃ pre k, tr = pre ++ [SendEvent.upload k true] ∧
      (∀ e ∈ pre, ∃ a, e = SendEvent.upload a false) ∧ send_oracle k = true) ∧
    (∃ base, make_remote_file_path rp fn = base ++ ".BMT") := by
  obtain ⟨pre, k, htr, hpre, hk⟩ :=
    send_single_file_no_paramiko_trace send_oracle move_oracle fuel n tr h
  refine ⟨?_, ⟨pre, k, htr, hpre, hk⟩, make_remote_file_path_bmt rp fn⟩
  intro e he a b
  rw [htr] at he
  rcases List.mem_append.mp he with h1 | h2
  · obtain ⟨c, rfl⟩ := hpre e h1
    exact fun hcontra => SendEvent.noConfusion hcontra
  · rw [List.mem_singleton.mp h2]
    exact fun hcontra => SendEvent.noConfusion hcontra

theorem move_skipped_without_paramiko_witness :
    ∃ pre k, [SendEvent.upload 1 true] = pre ++ [SendEvent.upload k true] ∧
      (∀ e ∈ pre, ∃ a, e = SendEvent.upload a false) ∧
      (fun _ : Nat => true) k = true :=
  (move_skipped_without_paramiko (fun _ => true) (fun _ => false) "/tmp/" "f"
    1 1 [SendEvent.upload 1 true] (by decide)).2.1

/-! ## C1: the orchestrator round invariants -/

theorem subset_round_fold (w : String → Bool) (l : List String) :
    ∀ acc x, x ∈ acc →
      x ∈ l.foldl (fun acc ip => if w ip then set_add acc ip else acc) acc := by
  induction l with
  | nil => intro acc x h; exact h
  | cons a t ih =>
    intro acc x h
    rw [List.foldl_cons]
    apply ih
    by_cases hw : w a = true
    · rw [if_pos hw]; exact subset_set_add acc x a h
    · rw [if_neg hw]; exact h

theorem mem_round_fold (w : String → Bool) (l : List String) :
    ∀ acc x, x ∈ l.foldl (fun acc ip => if w ip then set_add acc ip else acc) acc →
      x ∈ acc ∨ (x ∈ l ∧ w x = true) := by
  induction l with
  | nil => intro acc x h; exact Or.inl h
  | cons a t ih =>
    intro acc x h
    rw [List.foldl_cons] at h
    rcases ih _ x h with h1 | ⟨h2, h3⟩
    · by_cases hw : w a = true
      · rw [if_pos hw] at h1
        rcases (mem_set_add acc x a).mp h1 with h4 | rfl
        · exact Or.inl h4
        · exact Or.inr ⟨List.mem_cons_self _ _, hw⟩
      · rw [if_neg hw] at h1
        exact Or.inl h1
    · exact Or.inr ⟨List.mem_cons_of_mem _ h2, h3⟩

/-- A worker call that returned `True` ran `send_single_file` to
completion on every manifest entry whose local file exists. -/
theorem process_entries_sends (mm hp : Bool) (env : HostEnv)
    (local_exists : String → Bool) :
    ∀ (l : List FileEntry) (i0 : Nat),
      process_entries mm hp env local_exists i0 l = some true →
      ∀ j (hj : j < l.length),
        local_exists (l.get ⟨j, hj⟩).filename = true →
        (send_single_file mm hp (env.send_oracle (i0 + j)) (env.move_oracle (i0 + j))
          env.send_fuel 1).isSome = true := by
  intro l
  induction l with
  | nil => intro i0 h j hj; exact absurd hj (by simp)
  | cons e rest ih =>
    intro i0 h j hj hle
    rw [process_entries] at h
    by_cases hex : local_exists e.filename = true
    · rw [if_pos hex] at h
      cases hsf : send_single_file mm hp (env.send_oracle i0) (env.move_oracle i0)
          env.send_fuel 1 with
      | none => rw [hsf] at h; cases h
      | some tr =>
        rw [hsf] at h
        cases j with
        | zero => rw [Nat.add_zero, hsf]; rfl
        | succ jj =>
          have harith : i0 + (jj + 1) = (i0 + 1) + jj := by omega
          rw [harith]
          exact ih (i0 + 1) h jj (by simpa using Nat.lt_of_succ_lt_succ hj) hle
    · rw [if_neg hex] at h
      cases j with
      | zero => exact absurd hle hex
      | succ jj =>
        have harith : i0 + (jj + 1) = (i0 + 1) + jj := by omega
        rw [harith]
        exact ih (i0 + 1) h jj (by simpa using Nat.lt_of_succ_lt_succ hj) hle

theorem process_single_ip_true (mm hp : Bool) (apr : Nat) (env : HostEnv)
    (local_exists : String → Bool) (file_map : List FileEntry)
    (h : process_single_ip mm hp apr env local_exists file_map = some true) :
    process_entries mm hp env local_exists 0 file_map = some true := by
  rw [process_single_ip] at h
  by_cases hr : env.raised = true
  · rw [if_pos hr] at h
    exact absurd (Option.some.inj h) (by decide)
  · rw [if_neg hr] at h
    cases hw : wait_for_ssh_ready hp apr env.ping_fuel env.ping_oracle env.ssh_oracle
        env.ready_fuel with
    | none => rw [hw] at h; cases h
    | some w => rw [hw] at h; exact h

/-- C1: at every point of the orchestrator's round loop, the remaining
hosts and the success set partition the host list (every host is in
exactly one of the two), the success set only grows across a round, stays
inside the host list, and a host newly added to success had its worker
return `True` in one `process_single_ip` call — which requires
`send_single_file` to have completed for every manifest entry whose local
file exists, so no partial success is recorded. -/
theorem orchestrator_round_invariants
    (mm hp : Bool) (apr : Nat) (env_of : String → HostEnv)
    (local_exists : String → Bool) (file_map : List FileEntry)
    (ip_list success : List String)
    (hsub : ∀ x ∈ success, x ∈ ip_list) :
    (∀ x ∈ ip_list, x ∈ remaining_hosts ip_list success ∨ x ∈ success) ∧
    (∀ x ∈ remaining_hosts ip_list success, x ∈ ip_list ∧ x ∉ success) ∧
    (∀ x ∈ success,
      x ∈ round_step ip_list (host_worker mm hp apr env_of local_exists file_map)
        success) ∧
    (∀ x ∈ round_step ip_list (host_worker mm hp apr env_of local_exists file_map)
        success, x ∈ ip_list) ∧
    (∀ x ∈ round_step ip_list (host_worker mm hp apr env_of local_exists file_map)
        success, x ∉ success →
      process_single_ip mm hp apr (env_of x) local_exists file_map = some true ∧
      ∀ j (hj : j < file_map.length),
        local_exists (file_map.get ⟨j, hj⟩).filename = true →
        (send_single_file mm hp ((env_of x).send_oracle j) ((env_of x).move_oracle j)
          (env_of x).send_fuel 1).isSome = true) := by
  refine ⟨?_, ?_, ?_, ?_, ?_⟩
  · intro x hx
    by_cases hs : x ∈ success
    · exact Or.inr hs
    · left
      rw [remaining_hosts, List.mem_filter]
      refine ⟨hx, ?_⟩
      rw [Bool.not_eq_true']
      exact Bool.eq_false_iff.mpr (fun hc => hs (List.elem_iff.mp hc))
  · intro x hx
    rw [remaining_hosts, List.mem_filter] at hx
    obtain ⟨h1, h2⟩ := hx
    rw [Bool.not_eq_true'] at h2
    exact ⟨h1, fun hs => Bool.eq_false_iff.mp h2 (List.elem_iff.mpr hs)⟩
  · intro x hx
    unfold round_step
    exact subset_round_fold _ _ _ x hx
  · intro x hx
    unfold round_step at hx
    rcases mem_round_fold _ _ _ x hx with h1 | ⟨h2, -⟩
    · exact hsub x h1
    · rw [remaining_hosts, List.mem_filter] at h2
      exact h2.1
  · intro x hx hnx
    unfold round_step at hx
    rcases mem_round_fold _ _ _ x hx with h1 | ⟨-, h3⟩
    · exact absurd h1 hnx
    · unfold host_worker at h3
      have hps : process_single_ip mm hp apr (env_of x) local_exists file_map
          = some true := by simpa using h3
      refine ⟨hps, ?_⟩
      have hpe := process_single_ip_true mm hp apr (env_of x) local_exists file_map hps
      intro j hj hle
      have hse := process_entries_sends mm hp (env_of x) local_exists file_map 0
        hpe j hj hle
      simpa using hse

theorem orchestrator_round_invariants_witness :
    "h2" ∈ round_step ["h1", "h2"]
      (host_worker false true 1 (fun _ => sample_host_env) (fun _ => true)
        [{ filename := "f", remote_path := "/tmp/" }]) ["h2"] :=
  (orchestrator_round_invariants false true 1 (fun _ => sample_host_env)
    (fun _ => true) [{ filename := "f", remote_path := "/tmp/" }]
    ["h1", "h2"] ["h2"] (by decide)).2.2.1 "h2" (by decide)

end Deploy
